import Mathlib

/-!
Verification of the httpx test driver, `cmd/testhttpx/main.go`.

A shallow embedding of the decision logic of `cmd/testhttpx/main.go`:

* `AddSchemeIfNotExists` – the scheme inference applied to every raw target;
* `Unwrap` – the one-level error unwrapping used by the presenter;
* `OnResult` – the per-result presenter, as the sequence of builder calls it
  makes on the log event, including the UP/DOWN verdict.

The URL parser `urlutil.Parse`, `fmt.Errorf` and the time formatting are
functions of imported packages; they are taken as parameters. The package
`runner`, which `main` drives, is modelled from the specification.
-/

namespace Httpx

/-! ## Strings -/

/-- Go `strings.HasPrefix(s, prefix)`: `s` begins with `prefix`. Go compares
bytes; the prefixes used here are ASCII, for which comparing the characters
of well-formed UTF-8 text gives the same answer. -/
def HasPrefix (s pre : String) : Bool :=
  pre.data.isPrefixOf s.data

/-! ## Package `urlutil` (imported, `github.com/projectdiscovery/utils/url`) -/

/-- Constant `urlutil.HTTP` of the imported package: the bare scheme name,
to which the source appends `urlutil.SchemeSeparator` to form `http://`. -/
def HTTP : String := "http"

/-- Constant `urlutil.HTTPS` of the imported package: the bare scheme name. -/
def HTTPS : String := "https"

/-- Constant `urlutil.SchemeSeparator` of the imported package. -/
def SchemeSeparator : String := "://"

/-- The part of a parsed `*urlutil.URL` that `main.go` reads: the value of
the method `Port()` (the empty string when the input names no port). -/
structure URL where
  Port : String
  deriving DecidableEq, Repr

/-- Signature of `urlutil.Parse`: a parsed URL or an error (its message). -/
abbrev Parser := String → Except String URL

deriving instance DecidableEq for Except

/-! ## `AddSchemeIfNotExists` (main.go, lines 151-165) -/

/-- Embedding of `AddSchemeIfNotExists`. The diagnostic log line of the error
branch has no effect on the returned value and is left out. -/
def AddSchemeIfNotExists (Parse : Parser) (inputURL : String) : String :=
  if HasPrefix inputURL HTTP || HasPrefix inputURL HTTPS then
    inputURL
  else
    match Parse inputURL with
    | .error _ => inputURL
    | .ok parsed =>
      if parsed.Port != "" && (parsed.Port == "80" || parsed.Port == "8080") then
        HTTP ++ SchemeSeparator ++ inputURL
      else
        HTTPS ++ SchemeSeparator ++ inputURL

/-- A small host[:port] parser used to instantiate the `Parse` parameter on
concrete inputs: it rejects the empty string and any input containing a
blank, and reads the port as the text after the last colon. It is one
possible parser, not a model of the imported one. -/
def sampleParse : Parser := fun s =>
  if s.data = [] ∨ ' ' ∈ s.data then .error "invalid url"
  else
    match s.data.reverse.span (fun c => c != ':') with
    | (_, []) => .ok ⟨""⟩
    | (revPort, _ :: _) => .ok ⟨String.mk revPort.reverse⟩

/-! ## Errors and `Unwrap` (main.go, lines 139-147) -/

/-- A non-nil Go error value, by what its dynamic type offers to the type
assertion `err.(interface{ Unwrap() error })`:
* `plain`: the type has no method `Unwrap() error` (for instance `errors.New`);
* `wrap`: the type has the method and it returns the non-nil error `cause`;
* `wrapNil`: the type has the method and it returns `nil`. -/
inductive GoError where
  | plain (msg : String)
  | wrap (msg : String) (cause : GoError)
  | wrapNil (msg : String)
  deriving DecidableEq, Repr

/-- A value of the interface type `error`; `none` is `nil`. -/
abbrev Error := Option GoError

/-- Outcome of calling the method `Unwrap() error` on a non-nil error:
`none` when the dynamic type has no such method, `some r` when it has one
and the call returns `r`. -/
def GoError.unwrapMethod : GoError → Option Error
  | .plain _ => none
  | .wrap _ cause => some (some cause)
  | .wrapNil _ => some none

/-- The type assertion `u, ok := err.(interface{ Unwrap() error })` followed by
the call `u.Unwrap()`: `none` stands for `ok = false` (always so for a `nil`
interface value). -/
def assertUnwrapper (err : Error) : Option Error :=
  match err with
  | none => none
  | some e => e.unwrapMethod

/-- Embedding of `Unwrap`. -/
def Unwrap (err : Error) : Error :=
  match assertUnwrapper err with
  | none => err
  | some r => r

/-! ## Results and the presenter `OnResult` (main.go, lines 83-118) -/

/-- The part of a `time.Time` that `main.go` reads: the value of `IsZero()`
and of `Format(time.RFC3339)`. -/
structure Time where
  IsZero : Bool
  RFC3339 : String
  deriving DecidableEq, Repr

/-- The fields of `r.TLSData` that `main.go` reads. -/
structure TLSData where
  Error : String
  NotAfter : Time
  deriving DecidableEq, Repr

/-- The fields of `runner.Result` that `main.go` reads. `StatusCode` is a Go
`int`; no arithmetic is done on it, so it is an integer here. `TLSData` is a
pointer, `none` is `nil`. -/
structure Result where
  Input : String
  Error : String
  Err : Httpx.Error
  TLSData : Option TLSData
  StatusCode : Int
  ResponseTime : String
  deriving DecidableEq, Repr

/-- Level of a zerolog event. -/
inductive Level where
  | info
  | error
  deriving DecidableEq, Repr

/-- One field written into a zerolog event. -/
inductive Field where
  | err (e : GoError)
  | str (key val : String)
  | int (key : String) (val : Int)
  deriving DecidableEq, Repr

/-- A zerolog event: its level, the fields written so far in writing order,
and the message once it has been sent. -/
structure Event where
  level : Level
  fields : List Field
  msg : Option String
  deriving DecidableEq, Repr

/-- The call `log.Info()`. -/
def logInfo : Event := ⟨.info, [], none⟩

/-- The call `log.Error()`. -/
def logError : Event := ⟨.error, [], none⟩

/-- The call `l.Err(err)`: writes the error field, and nothing for `nil`. -/
def Event.Err (l : Event) (err : Error) : Event :=
  match err with
  | none => l
  | some e => { l with fields := l.fields ++ [.err e] }

/-- The call `l.Str(key, val)`. -/
def Event.Str (l : Event) (key val : String) : Event :=
  { l with fields := l.fields ++ [.str key val] }

/-- The call `l.Int(key, val)`. -/
def Event.Int (l : Event) (key : String) (val : Int) : Event :=
  { l with fields := l.fields ++ [.int key val] }

/-- The call `l.Msg(msg)`, which sends the event. -/
def Event.Msg (l : Event) (msg : String) : Event :=
  { l with msg := some msg }

/-- The TLS block of the callback (lines 100-108). -/
def tlsFields (l : Event) (tls : Option TLSData) : Event :=
  match tls with
  | none => l
  | some t =>
    let l := if t.Error != "" then l.Str "tlsError" t.Error else l
    if !t.NotAfter.IsZero then l.Str "tlsNotAfter" t.NotAfter.RFC3339 else l

/-- Embedding of the `OnResult` callback: the event it sends. The builder
calls mutate the event in place in the source; here the event is threaded
through. The deferred `l.Msg("Ping url")` runs last. `Errorf` is
`fmt.Errorf` applied to a format string alone. -/
def OnResult (Errorf : String → GoError) (r : Result) : Event :=
  let l := logInfo
  let l :=
    if r.Error != "" then
      logError.Err (some (Errorf r.Error))
    else if r.Err != none then
      logError.Err (Unwrap r.Err)
    else l
  let l := l.Str "input" r.Input
  let l := tlsFields l r.TLSData
  let l := (l.Int "statusCode" r.StatusCode).Str "responseTime" r.ResponseTime
  let l :=
    if r.StatusCode > 199 && r.StatusCode < 300 then
      l.Str "status" "UP"
    else
      l.Str "status" "DOWN"
  l.Msg "Ping url"

/-- The values written under the string key `key`, in writing order. -/
def Event.strValues (l : Event) (key : String) : List String :=
  l.fields.filterMap fun f =>
    match f with
    | .str k v => if k = key then some v else none
    | _ => none

/-- The errors written into the event, in writing order. -/
def Event.errs (l : Event) : List GoError :=
  l.fields.filterMap fun f =>
    match f with
    | .err e => some e
    | _ => none

/-- A stand-in for `fmt.Errorf` on concrete inputs: the message is the
format string itself. -/
def sampleErrorf : String → GoError := fun s => .plain s

/-- A result of a target that answered 204. -/
def sampleUp : Result :=
  ⟨"https://example.com", "", none, some ⟨"", ⟨false, "2027-01-01T00:00:00Z"⟩⟩, 204, "12ms"⟩

/-- A result of a target that never answered, with both error fields set. -/
def sampleDown : Result :=
  ⟨"https://example2.com", "timeout", some (.wrap "probe" (.plain "dial")), none, 0, ""⟩

/-! ## The runner (package `runner`)

`main` hands the normalized targets to `runner.New(options)` and calls
`RunEnumeration`. The package is not among the sources read here; its retry
and redirect engine is modelled from sections 3, 4.2, 4.3 and 4.4 of the
specification. -/

/-- Modelled from the spec: the session configuration `ProbeOptions` of
section 3 (the declaration `runner.Options` is missing). -/
structure ProbeOptions where
  methods : List String
  timeoutSeconds : Nat
  maxRetries : Nat
  followRedirects : Bool
  maxRedirects : Nat
  captureTLS : Bool
  maxResponseBytesToSave : Nat
  maxResponseBytesToRead : Nat
  randomizeUserAgent : Bool
  unsafeMode : Bool
  deriving DecidableEq, Repr

/-- Modelled from the spec: the states of the missing `RetryRedirectController`
(section 4.3). -/
inductive Phase where
  | Attempting
  | Redirecting
  | Retrying
  | Succeeded
  | Failed
  deriving DecidableEq, Repr

/-- Modelled from the spec: the per-target data of the missing
`RetryRedirectController`: the state, the URL being probed, the two
independent counters, the number of attempts made, and what the last
attempt left behind. -/
structure Controller where
  phase : Phase
  url : String
  retries : Nat
  redirects : Nat
  attempts : Nat
  responded : Bool
  statusCode : Int
  responseTime : String
  tls : Option TLSData
  location : String
  error : String
  err : Error
  deriving DecidableEq, Repr

/-- Modelled from the spec: the terminal state the missing controller takes
when it stops on a failure: `Succeeded` if a response was obtained at least
once, `Failed` if every attempt errored. -/
def Controller.finalPhase (c : Controller) : Phase :=
  if c.responded then .Succeeded else .Failed

/-- A bound on the transitions left to the modelled controller: twice the
two budgets that remain, counted after the increment that a pending retry or
redirect is about to make, plus the position inside the current round. -/
def Controller.measure (opts : ProbeOptions) (c : Controller) : Nat :=
  match c.phase with
  | .Attempting => 2 * ((opts.maxRetries - c.retries) + (opts.maxRedirects - c.redirects)) + 2
  | .Retrying =>
    2 * ((opts.maxRetries - (c.retries + 1)) + (opts.maxRedirects - c.redirects)) + 3
  | .Redirecting =>
    2 * ((opts.maxRetries - c.retries) + (opts.maxRedirects - (c.redirects + 1))) + 3
  | .Succeeded => 0
  | .Failed => 0

theorem hasPrefix_iff (s pre : String) : HasPrefix s pre = true ↔ pre.data <+: s.data := by
  unfold HasPrefix
  exact List.isPrefixOf_iff_prefix

theorem HTTP_prefix_HTTPS : HTTP.data <+: HTTPS.data :=
  ⟨['s'], rfl⟩

theorem HTTP_prefix_httpScheme : HTTP.data <+: ("http://" : String).data :=
  ⟨[':', '/', '/'], rfl⟩

theorem HTTP_prefix_httpsScheme : HTTP.data <+: ("https://" : String).data :=
  ⟨['s', ':', '/', '/'], rfl⟩

theorem httpScheme_eq : HTTP ++ SchemeSeparator = "http://" := by decide

theorem httpsScheme_eq : HTTPS ++ SchemeSeparator = "https://" := by decide

theorem utf8ByteSize_append (a b : String) :
    (a ++ b).utf8ByteSize = a.utf8ByteSize + b.utf8ByteSize := by
  obtain ⟨as⟩ := a
  obtain ⟨bs⟩ := b
  show String.utf8ByteSize ⟨as ++ bs⟩ = _
  simp only [String.utf8ByteSize_mk, String.utf8Len_append]

/-- An input that begins with `"http://"` or `"https://"` begins with `urlutil.HTTP`. -/
theorem hasPrefix_HTTP_of_scheme (raw : String)
    (h : HasPrefix raw "http://" = true ∨ HasPrefix raw "https://" = true) :
    HasPrefix raw HTTP = true := by
  rw [hasPrefix_iff]
  rcases h with h | h
  · exact HTTP_prefix_httpScheme.trans ((hasPrefix_iff _ _).1 h)
  · exact HTTP_prefix_httpsScheme.trans ((hasPrefix_iff _ _).1 h)

/-- Whatever is prefixed with a scheme by the function begins with `urlutil.HTTP`. -/
theorem hasPrefix_HTTP_prepended (raw : String) :
    HasPrefix (HTTP ++ SchemeSeparator ++ raw) HTTP = true ∧
      HasPrefix (HTTPS ++ SchemeSeparator ++ raw) HTTP = true := by
  constructor
  · rw [hasPrefix_iff]
    simp only [String.data_append, List.append_assoc]
    exact List.prefix_append _ _
  · rw [hasPrefix_iff]
    simp only [String.data_append, List.append_assoc]
    exact HTTP_prefix_HTTPS.trans (List.prefix_append _ _)

/-- The guard of the function is taken as soon as the input begins with `urlutil.HTTP`. -/
theorem AddSchemeIfNotExists_of_hasPrefix_HTTP (Parse : Parser) (raw : String)
    (h : HasPrefix raw HTTP = true) : AddSchemeIfNotExists Parse raw = raw := by
  unfold AddSchemeIfNotExists
  simp [h]

/-- The three possible shapes of the result. -/
theorem AddSchemeIfNotExists_cases (Parse : Parser) (raw : String) :
    AddSchemeIfNotExists Parse raw = raw ∨
      AddSchemeIfNotExists Parse raw = HTTP ++ SchemeSeparator ++ raw ∨
      AddSchemeIfNotExists Parse raw = HTTPS ++ SchemeSeparator ++ raw := by
  unfold AddSchemeIfNotExists
  split
  · exact Or.inl rfl
  · split
    · exact Or.inl rfl
    · split
      · exact Or.inr (Or.inl rfl)
      · exact Or.inr (Or.inr rfl)

/-! ## `AddSchemeIfNotExists` -/

/-- C1 (evaluation at the failing input): the host `httpbin.org` begins with
neither `"http://"` nor `"https://"`, the sample parser accepts it with no
port, and yet, whatever the parser, `AddSchemeIfNotExists` returns it as it
is, so the result is not `"https://httpbin.org"`: the guard compares with
the bare scheme name `"http"`. -/
theorem AddSchemeIfNotExists_bare_http_host (Parse : Parser) :
    HasPrefix "httpbin.org" "http://" = false ∧
    HasPrefix "httpbin.org" "https://" = false ∧
    sampleParse "httpbin.org" = .ok ⟨""⟩ ∧
    AddSchemeIfNotExists Parse "httpbin.org" = "httpbin.org" ∧
    AddSchemeIfNotExists Parse "httpbin.org" ≠ "https://" ++ "httpbin.org" := by
  have h : AddSchemeIfNotExists Parse "httpbin.org" = "httpbin.org" :=
    AddSchemeIfNotExists_of_hasPrefix_HTTP Parse _ (by decide)
  refine ⟨by decide, by decide, by decide, h, ?_⟩
  rw [h]
  decide

/-- What C1 states, shown for the inputs that do not begin with the bare
scheme name `"http"`: if the parser accepts the input, the result is
`"http://" ++ raw` when the port is `"80"` or `"8080"` and
`"https://" ++ raw` otherwise. -/
theorem AddSchemeIfNotExists_parsed (Parse : Parser) (raw : String) (u : URL)
    (hpre : HasPrefix raw HTTP = false) (hp : Parse raw = .ok u) :
    AddSchemeIfNotExists Parse raw =
      if u.Port = "80" ∨ u.Port = "8080" then "http://" ++ raw else "https://" ++ raw := by
  have hpre2 : HasPrefix raw HTTPS = false := by
    cases h : HasPrefix raw HTTPS with
    | false => rfl
    | true =>
      have h1 : HasPrefix raw HTTP = true :=
        (hasPrefix_iff _ _).2 (HTTP_prefix_HTTPS.trans ((hasPrefix_iff _ _).1 h))
      rw [hpre] at h1
      cases h1
  unfold AddSchemeIfNotExists
  simp only [hpre, hpre2, hp, Bool.or_self, Bool.false_eq_true, if_false, httpScheme_eq,
    httpsScheme_eq]
  by_cases h80 : u.Port = "80"
  · simp [h80]
  · by_cases h8080 : u.Port = "8080"
    · simp [h8080]
    · simp [h80, h8080]

/-- C2: an input that begins with `"http://"` or `"https://"` is returned
unchanged, whatever the URL parser would say about it. -/
theorem AddSchemeIfNotExists_schemed (Parse : Parser) (raw : String)
    (h : HasPrefix raw "http://" = true ∨ HasPrefix raw "https://" = true) :
    AddSchemeIfNotExists Parse raw = raw :=
  AddSchemeIfNotExists_of_hasPrefix_HTTP Parse raw (hasPrefix_HTTP_of_scheme raw h)

/-- Witness of C2 at `"https://example.com"`, with a parser that rejects everything. -/
theorem AddSchemeIfNotExists_schemed_witness :
    (HasPrefix "https://example.com" "http://" = true ∨
      HasPrefix "https://example.com" "https://" = true) ∧
    AddSchemeIfNotExists (fun _ => .error "never asked") "https://example.com"
      = "https://example.com" :=
  ⟨Or.inr (by decide), AddSchemeIfNotExists_schemed _ _ (Or.inr (by decide))⟩

/-- C3: an input without scheme prefix that the parser rejects is returned
unchanged; the function is total, so it returns normally. -/
theorem AddSchemeIfNotExists_unparsable (Parse : Parser) (raw : String) (e : String)
    (_h1 : HasPrefix raw "http://" = false) (_h2 : HasPrefix raw "https://" = false)
    (hp : Parse raw = .error e) :
    AddSchemeIfNotExists Parse raw = raw := by
  unfold AddSchemeIfNotExists
  split
  · rfl
  · simp [hp]

/-- Witness of C3 at `"exa mple.com"`, which the sample parser rejects. -/
theorem AddSchemeIfNotExists_unparsable_witness :
    sampleParse "exa mple.com" = .error "invalid url" ∧
    AddSchemeIfNotExists sampleParse "exa mple.com" = "exa mple.com" :=
  ⟨by decide,
   AddSchemeIfNotExists_unparsable sampleParse "exa mple.com" "invalid url"
     (by decide) (by decide) (by decide)⟩

/-- C4: `AddSchemeIfNotExists` is idempotent on every input, for every parser. -/
theorem AddSchemeIfNotExists_idempotent (Parse : Parser) (raw : String) :
    AddSchemeIfNotExists Parse (AddSchemeIfNotExists Parse raw) =
      AddSchemeIfNotExists Parse raw := by
  rcases AddSchemeIfNotExists_cases Parse raw with h | h | h
  · rw [h, h]
  · rw [h]
    exact AddSchemeIfNotExists_of_hasPrefix_HTTP Parse _ (hasPrefix_HTTP_prepended raw).1
  · rw [h]
    exact AddSchemeIfNotExists_of_hasPrefix_HTTP Parse _ (hasPrefix_HTTP_prepended raw).2

/-- C6: for every parser that reads `example.com` with no port and
`e.vinahost.vn:2096` with port `2096`, both targets get the encrypted scheme. -/
theorem AddSchemeIfNotExists_scenarios (Parse : Parser)
    (h1 : Parse "example.com" = .ok ⟨""⟩)
    (h2 : Parse "e.vinahost.vn:2096" = .ok ⟨"2096"⟩) :
    AddSchemeIfNotExists Parse "example.com" = "https://example.com" ∧
    AddSchemeIfNotExists Parse "e.vinahost.vn:2096" = "https://e.vinahost.vn:2096" := by
  constructor
  · rw [AddSchemeIfNotExists_parsed Parse _ _ (by decide) h1]
    decide
  · rw [AddSchemeIfNotExists_parsed Parse _ _ (by decide) h2]
    decide

/-- Witness of C6 with the sample parser. -/
theorem AddSchemeIfNotExists_scenarios_witness :
    AddSchemeIfNotExists sampleParse "example.com" = "https://example.com" ∧
    AddSchemeIfNotExists sampleParse "e.vinahost.vn:2096" = "https://e.vinahost.vn:2096" :=
  AddSchemeIfNotExists_scenarios sampleParse (by decide) (by decide)

/-- C10: the result is the input, or the input behind `"http://"`, or the
input behind `"https://"`; the input is a suffix of the result, and the
result is at most 8 characters (and 8 bytes) longer. -/
theorem AddSchemeIfNotExists_only_prepends (Parse : Parser) (raw : String) :
    (AddSchemeIfNotExists Parse raw = raw ∨
      AddSchemeIfNotExists Parse raw = "http://" ++ raw ∨
      AddSchemeIfNotExists Parse raw = "https://" ++ raw) ∧
    raw.data <:+ (AddSchemeIfNotExists Parse raw).data ∧
    (AddSchemeIfNotExists Parse raw).length ≤ raw.length + 8 ∧
    (AddSchemeIfNotExists Parse raw).utf8ByteSize ≤ raw.utf8ByteSize + 8 := by
  have hc := AddSchemeIfNotExists_cases Parse raw
  rw [String.append_assoc, String.append_assoc, ← String.append_assoc HTTP,
    ← String.append_assoc HTTPS, httpScheme_eq, httpsScheme_eq] at hc
  refine ⟨hc, ?_, ?_, ?_⟩
  · rcases hc with h | h | h
    · rw [h]
    · rw [h]
      exact ⟨_, (String.data_append _ _).symm⟩
    · rw [h]
      exact ⟨_, (String.data_append _ _).symm⟩
  · rcases hc with h | h | h <;> rw [h]
    · omega
    · rw [String.length_append]
      have : ("http://" : String).length = 7 := by decide
      omega
    · rw [String.length_append]
      have : ("https://" : String).length = 8 := by decide
      omega
  · rcases hc with h | h | h <;> rw [h]
    · omega
    · rw [utf8ByteSize_append]
      have : ("http://" : String).utf8ByteSize = 7 := by decide
      omega
    · rw [utf8ByteSize_append]
      have : ("https://" : String).utf8ByteSize = 8 := by decide
      omega

/-! ## `Unwrap` -/

/-- C7 (evaluation at the failing input): a non-nil error whose `Unwrap`
method yields `nil` has no deeper cause, yet `Unwrap` returns `nil` for it
and not the error itself, unlike the path taken when the method is missing.
At the call site, a result with an empty `Error` and this `Err` is sent as
an error event that carries no error. -/
theorem Unwrap_nil_cause_returns_nil (Errorf : String → GoError) :
    (GoError.wrapNil "no cause").unwrapMethod = some none ∧
    Unwrap (some (.wrapNil "no cause")) = none ∧
    Unwrap (some (.wrapNil "no cause")) ≠ some (.wrapNil "no cause") ∧
    (OnResult Errorf ⟨"https://example.com", "", some (.wrapNil "no cause"), none, 0, ""⟩).level
      = .error ∧
    (OnResult Errorf ⟨"https://example.com", "", some (.wrapNil "no cause"), none, 0, ""⟩).errs
      = [] :=
  ⟨rfl, rfl, by decide, rfl, rfl⟩

/-- What C7 states, on the errors for which the code does it: if `e` wraps
the immediate cause `c` then `Unwrap` returns `c` itself; if `e` has no
`Unwrap` method then `Unwrap` returns `e`; and the result is non-nil as soon
as the `Unwrap` method of `e`, if it has one, does not yield `nil`. -/
theorem Unwrap_one_level (e : GoError) :
    (∀ c, e.unwrapMethod = some (some c) → Unwrap (some e) = some c) ∧
    (e.unwrapMethod = none → Unwrap (some e) = some e) ∧
    (e.unwrapMethod ≠ some none → Unwrap (some e) ≠ none) := by
  cases e with
  | plain msg => simp [Unwrap, assertUnwrapper, GoError.unwrapMethod]
  | wrap msg cause => simp [Unwrap, assertUnwrapper, GoError.unwrapMethod]
  | wrapNil msg => simp [Unwrap, assertUnwrapper, GoError.unwrapMethod]

/-- On a chain of three errors the middle one comes out, not the root; an
error without the method comes out itself. -/
theorem Unwrap_one_level_witness :
    Unwrap (some (.wrap "outer" (.wrap "middle" (.plain "root"))))
      = some (.wrap "middle" (.plain "root")) ∧
    Unwrap (some (.plain "root")) = some (.plain "root") ∧
    Unwrap (some (.wrap "outer" (.plain "root"))) ≠ none :=
  ⟨(Unwrap_one_level (.wrap "outer" (.wrap "middle" (.plain "root")))).1 _ rfl,
   (Unwrap_one_level (.plain "root")).2.1 rfl,
   (Unwrap_one_level (.wrap "outer" (.plain "root"))).2.2 (by decide)⟩

/-! ## `OnResult` -/

theorem strValues_Str (l : Event) (k v key : String) :
    (l.Str k v).strValues key = l.strValues key ++ (if k = key then [v] else []) := by
  unfold Event.Str Event.strValues
  by_cases h : k = key <;> simp [h]

theorem strValues_Int (l : Event) (k : String) (v : Int) (key : String) :
    (l.Int k v).strValues key = l.strValues key := by
  simp [Event.Int, Event.strValues]

theorem strValues_Err (l : Event) (err : Error) (key : String) :
    (l.Err err).strValues key = l.strValues key := by
  cases err <;> simp [Event.Err, Event.strValues]

theorem strValues_Msg (l : Event) (m key : String) :
    (l.Msg m).strValues key = l.strValues key := rfl

theorem errs_Str (l : Event) (k v : String) : (l.Str k v).errs = l.errs := by
  simp [Event.Str, Event.errs]

theorem errs_Int (l : Event) (k : String) (v : Int) : (l.Int k v).errs = l.errs := by
  simp [Event.Int, Event.errs]

theorem errs_Err (l : Event) (err : Error) : (l.Err err).errs = l.errs ++ err.toList := by
  cases err <;> simp [Event.Err, Event.errs]

theorem errs_Msg (l : Event) (m : String) : (l.Msg m).errs = l.errs := rfl

theorem level_Str (l : Event) (k v : String) : (l.Str k v).level = l.level := rfl

theorem level_Int (l : Event) (k : String) (v : Int) : (l.Int k v).level = l.level := rfl

theorem level_Err (l : Event) (err : Error) : (l.Err err).level = l.level := by
  cases err <;> rfl

theorem level_Msg (l : Event) (m : String) : (l.Msg m).level = l.level := rfl

theorem strValues_tlsFields_status (l : Event) (tls : Option TLSData) :
    (tlsFields l tls).strValues "status" = l.strValues "status" := by
  unfold tlsFields
  cases tls with
  | none => rfl
  | some t =>
    by_cases h1 : t.Error = "" <;> cases h2 : t.NotAfter.IsZero <;>
      simp [h1, h2, strValues_Str]

theorem errs_tlsFields (l : Event) (tls : Option TLSData) :
    (tlsFields l tls).errs = l.errs := by
  unfold tlsFields
  cases tls with
  | none => rfl
  | some t =>
    by_cases h1 : t.Error = "" <;> cases h2 : t.NotAfter.IsZero <;>
      simp [h1, h2, errs_Str]

theorem level_tlsFields (l : Event) (tls : Option TLSData) :
    (tlsFields l tls).level = l.level := by
  unfold tlsFields
  cases tls with
  | none => rfl
  | some t =>
    by_cases h1 : t.Error = "" <;> cases h2 : t.NotAfter.IsZero <;>
      simp [h1, h2, level_Str]

/-- The event opened by the first block of the callback (lines 84-92). -/
theorem OnResult_opening (Errorf : String → GoError) (r : Result) :
    (OnResult Errorf r).level =
      (if r.Error != "" then logError.Err (some (Errorf r.Error))
       else if r.Err != none then logError.Err (Unwrap r.Err) else logInfo).level ∧
    (OnResult Errorf r).errs =
      (if r.Error != "" then logError.Err (some (Errorf r.Error))
       else if r.Err != none then logError.Err (Unwrap r.Err) else logInfo).errs := by
  unfold OnResult
  constructor
  · simp only []
    split <;> simp only [level_Msg, level_Str, level_Int, level_tlsFields]
  · simp only []
    split <;> simp only [errs_Msg, errs_Str, errs_Int, errs_tlsFields]

/-- The only value written under the key `status` is the verdict. -/
theorem OnResult_status (Errorf : String → GoError) (r : Result) :
    (OnResult Errorf r).strValues "status" =
      [if 200 ≤ r.StatusCode ∧ r.StatusCode < 300 then "UP" else "DOWN"] := by
  have h0 : ∀ l : Event, l.fields = [] → l.strValues "status" = [] := by
    intro l hl
    simp [Event.strValues, hl]
  have hopen : (if r.Error != "" then logError.Err (some (Errorf r.Error))
       else if r.Err != none then logError.Err (Unwrap r.Err) else logInfo).strValues "status"
       = [] := by
    split
    · rw [strValues_Err]; exact h0 _ rfl
    · split
      · rw [strValues_Err]; exact h0 _ rfl
      · exact h0 _ rfl
  have hk1 : ("input" : String) ≠ "status" := by decide
  have hk2 : ("responseTime" : String) ≠ "status" := by decide
  unfold OnResult
  by_cases h : 200 ≤ r.StatusCode ∧ r.StatusCode < 300
  · have hb : (r.StatusCode > 199 && r.StatusCode < 300) = true := by
      simp only [Bool.and_eq_true, decide_eq_true_eq]
      omega
    simp only []
    rw [if_pos hb, if_pos h]
    simp only [if_true, strValues_Msg, strValues_Str, strValues_Int,
      strValues_tlsFields_status, hopen, hk1, hk2, if_false, List.append_nil, List.nil_append]
  · have hb : ¬ ((r.StatusCode > 199 && r.StatusCode < 300) = true) := by
      simp only [Bool.and_eq_true, decide_eq_true_eq]
      omega
    simp only []
    rw [if_neg hb, if_neg h]
    simp only [if_true, strValues_Msg, strValues_Str, strValues_Int,
      strValues_tlsFields_status, hopen, hk1, hk2, if_false, List.append_nil, List.nil_append]

/-- C5: the verdict written by `OnResult` is `UP` exactly when
`200 ≤ StatusCode < 300` and `DOWN` exactly otherwise, for every integer
status code; so 0, negative codes, 199, 300 and 404 give `DOWN` and 204
gives `UP`. -/
theorem OnResult_verdict (Errorf : String → GoError) (r : Result) :
    ((OnResult Errorf r).strValues "status" = ["UP"] ↔
      (200 ≤ r.StatusCode ∧ r.StatusCode < 300)) ∧
    ((OnResult Errorf r).strValues "status" = ["DOWN"] ↔
      ¬ (200 ≤ r.StatusCode ∧ r.StatusCode < 300)) ∧
    (∀ code : Int, code ∈ [0, -1, 199, 300, 404] →
      (OnResult Errorf { r with StatusCode := code }).strValues "status" = ["DOWN"]) ∧
    (OnResult Errorf { r with StatusCode := 204 }).strValues "status" = ["UP"] := by
  refine ⟨?_, ?_, ?_, ?_⟩
  · rw [OnResult_status]
    by_cases h : 200 ≤ r.StatusCode ∧ r.StatusCode < 300
    · simp [h]
    · simp [h]
  · rw [OnResult_status]
    by_cases h : 200 ≤ r.StatusCode ∧ r.StatusCode < 300
    · simp [h]
    · simp [h]
  · intro code hc
    rw [OnResult_status]
    simp only [List.mem_cons, List.mem_singleton, List.not_mem_nil, or_false] at hc
    rcases hc with h | h | h | h | h <;> subst h <;> simp
  · rw [OnResult_status]
    simp

/-- Witness of C5 on the two sample results. -/
theorem OnResult_verdict_witness :
    (OnResult sampleErrorf sampleUp).strValues "status" = ["UP"] ∧
    (OnResult sampleErrorf sampleDown).strValues "status" = ["DOWN"] :=
  ⟨(OnResult_verdict sampleErrorf sampleUp).1.2 (by decide),
   (OnResult_verdict sampleErrorf sampleDown).2.1.2 (by decide)⟩

/-- C8: with a non-empty `Error`, the event is an error event whose only
error is built from `Error`, the same for every value of `Err`; with an
empty `Error` and a non-nil `Err`, it is an error event carrying
`Unwrap(Err)`; with both absent it is an info event carrying no error. -/
theorem OnResult_error_precedence (Errorf : String → GoError) (r : Result) :
    (r.Error ≠ "" → ∀ err : Error,
      (OnResult Errorf { r with Err := err }).level = .error ∧
      (OnResult Errorf { r with Err := err }).errs = [Errorf r.Error]) ∧
    (r.Error = "" → r.Err ≠ none →
      (OnResult Errorf r).level = .error ∧
      (OnResult Errorf r).errs = (Unwrap r.Err).toList) ∧
    (r.Error = "" → r.Err = none →
      (OnResult Errorf r).level = .info ∧ (OnResult Errorf r).errs = []) := by
  refine ⟨?_, ?_, ?_⟩
  · intro h err
    have := OnResult_opening Errorf { r with Err := err }
    simp only [bne_iff_ne, ne_eq, h, not_false_eq_true, if_true, level_Err, errs_Err] at this
    exact ⟨this.1, this.2⟩
  · intro h1 h2
    have := OnResult_opening Errorf r
    simp only [bne_iff_ne, ne_eq, h1, h2, not_true_eq_false, not_false_eq_true, if_true,
      if_false, level_Err, errs_Err] at this
    exact ⟨this.1, this.2⟩
  · intro h1 h2
    have := OnResult_opening Errorf r
    simp only [bne_iff_ne, ne_eq, h1, h2, not_true_eq_false, if_false] at this
    exact ⟨this.1, this.2⟩

/-- Witness of C8 on the sample results: `sampleDown` has both error fields
set and shows `Error`; emptied of `Error` it shows one level of `Err`;
`sampleUp` has neither. -/
theorem OnResult_error_precedence_witness :
    (OnResult sampleErrorf { sampleDown with Err := none }).errs = [.plain "timeout"] ∧
    (OnResult sampleErrorf { sampleDown with Error := "" }).errs = [.plain "dial"] ∧
    (OnResult sampleErrorf sampleUp).level = .info :=
  ⟨((OnResult_error_precedence sampleErrorf sampleDown).1 (by decide) none).2,
   ((OnResult_error_precedence sampleErrorf { sampleDown with Error := "" }).2.1
      rfl (by decide)).2,
   ((OnResult_error_precedence sampleErrorf sampleUp).2.2 rfl rfl).1⟩

/-! ## The probing session -/

theorem finalPhase_measure (opts : ProbeOptions) (c : Controller) (h : c.phase = c.finalPhase) :
    c.measure opts = 0 := by
  unfold Controller.measure
  unfold Controller.finalPhase at h
  split at h <;> rw [h]

end Httpx
